import Mathlib

/-!
Shallow embedding of `src/main.rs` of the DNS-over-HTTPS proxy.

Bytes are modelled as `Nat`, byte strings as `List Nat`. Rust slicing
`xs[i..]` / `xs[..i]` panics when the start (resp. end) of the range exceeds
the length; this is modelled by `Option`-returning slice helpers.
Fallible operations return `Except RunError _`: `RunError.panicked` stands for
a Rust panic (out-of-range slice, out-of-range `Vec::drain`, `unwrap` on
`None`), `RunError.forwardErr` for an `anyhow` error propagated with `?` from
the reqwest calls in `cache_miss`. The wall clock (`Instant`) is modelled as
a `Nat` count of seconds passed in explicitly; `Instant::elapsed().as_secs()`
for an entry stamped `t`, observed at time `now`, is `now - t` (truncated
subtraction, matching the non-negative `Duration`).

The DoH remote is an oracle: each received datagram in a trace carries the
`Option (List Nat)` response the remote would give if consulted — `none`
means the HTTP POST (or reading its body) fails.
-/

namespace DoH

/-- Rust slice `xs[i..]` on a byte vector: `some (xs.drop i)` when
`i ≤ xs.len()`, otherwise the access panics (`none`). -/
def sliceFrom (xs : List Nat) (i : Nat) : Option (List Nat) :=
  if i ≤ xs.length then some (xs.drop i) else none

/-- Rust slice `xs[0..i]` on a byte vector: `some (xs.take i)` when
`i ≤ xs.len()`, otherwise the access panics (`none`). -/
def sliceTo (xs : List Nat) (i : Nat) : Option (List Nat) :=
  if i ≤ xs.length then some (xs.take i) else none

/-- A cache entry: `(Instant, Vec<u8>)` — insertion time in seconds and the
cached response payload. -/
abbrev Entry := Nat × List Nat

/-- `type Cache = HashMap<Vec<u8>, (Instant, Vec<u8>)>`, modelled as an
association list with pairwise-distinct keys (maintained by `cacheInsert`). -/
abbrev Cache := List (List Nat × Entry)

/-- `HashMap::get`: first (and, given `cacheInsert`, only) binding of the key. -/
def cacheGet : Cache → List Nat → Option Entry
  | [], _ => none
  | (k, v) :: rest, key => if k = key then some v else cacheGet rest key

/-- `HashMap::insert`: overwrite-on-conflict insert. -/
def cacheInsert (c : Cache) (k : List Nat) (v : Entry) : Cache :=
  (k, v) :: c.filter (fun kv => kv.1 ≠ k)

/-- `HashMap::contains_key`. -/
def cacheContains (c : Cache) (k : List Nat) : Bool :=
  (cacheGet c k).isSome

/-- How a cycle of the proxy can fail: a Rust panic, or an error value
propagated with `?` from the DoH forwarding calls. -/
inductive RunError
  | panicked
  | forwardErr
deriving DecidableEq

/-- `invalidate_cache` (main.rs:86-95): rebuilds the cache, retaining a key
exactly when `value.0.elapsed().as_secs() > ttl || !force`.  `elapsed` for an
entry stamped `t` observed at `now` is `now - t`. -/
def invalidate_cache (cache : Cache) (ttl : Nat) (force : Bool) (now : Nat) : Cache :=
  cache.filter (fun kv => decide (now - kv.2.1 > ttl) || !force)

/-- The cache key derivation of the spec, `key_for(query)`: the query bytes
from offset 2 onward, i.e. the slice `&query[2..]` (which panics when the
query is shorter than 2 bytes). -/
def key_for (query : List Nat) : Option (List Nat) :=
  sliceFrom query 2

/-- The key expression `&request[2..].to_vec()` used by the containment check
in `cache_hit` (main.rs:130). -/
def cacheHitKey (request : List Nat) : Option (List Nat) :=
  sliceFrom request 2

/-- The key expression `request[2..].to_vec()` used by the insert in
`cache_miss` (main.rs:111). -/
def cacheMissInsertKey (request : List Nat) : Option (List Nat) :=
  sliceFrom request 2

/-- The key expression `&request[2..]` used by the lookup in `main`
(main.rs:73). -/
def mainLookupKey (request : List Nat) : Option (List Nat) :=
  sliceFrom request 2

/-- `cache_miss` (main.rs:98-116).  `resp` is the oracle answer of the DoH
remote: `none` when `send().await?` / `bytes().await?` fails (the `?`
propagates `RunError.forwardErr`); `some body` is the response body.  On
success the code inserts under key `request[2..].to_vec()` the pair
`(Instant::now(), body.drain(2..).collect())`; `body.drain(2..)` yields the
bytes of `body` from index 2 on and panics when `body.len() < 2`. -/
def cache_miss (cache : Cache) (request : List Nat) (now : Nat)
    (resp : Option (List Nat)) : Except RunError Cache :=
  match resp with
  | none => .error .forwardErr
  | some body =>
    match cacheMissInsertKey request with
    | none => .error .panicked
    | some key =>
      match sliceFrom body 2 with
      | none => .error .panicked
      | some payload => .ok (cacheInsert cache key (now, payload))

/-- `cache_hit` (main.rs:123-136): if `cache.contains_key(&request[2..].to_vec())`
the call is a no-op (the `Bool` component records the HIT/MISS branch taken,
mirroring the `debug!` log); otherwise it delegates to `cache_miss`. -/
def cache_hit (cache : Cache) (request : List Nat) (now : Nat)
    (resp : Option (List Nat)) : Except RunError (Cache × Bool) :=
  match cacheHitKey request with
  | none => .error .panicked
  | some key =>
    if cacheContains cache key then .ok (cache, true)
    else (cache_miss cache request now resp).map (fun c => (c, false))

/-- Recursion core of `get_query_names` (main.rs:137-150), with an explicit
fuel argument making the recursion structural.  One step reads the length
byte `req[0]` (panic when `req` is empty), terminates on `0`, otherwise takes
the label `&req[1..=len]` and the tail `&req[(len+1)..]` (both panic when
`len > rest.length`, i.e. when the length byte overruns the buffer), extends
the accumulator with the label's bytes as chars plus a dot, and recurses on
the tail.  Every recursive step strictly shrinks the list, so fuel
`req.length` (as supplied by `get_query_names`) always suffices. -/
def getQueryNamesGo : Nat → List Nat → String → Option String
  | _, [], _ => none
  | 0, _ :: _, _ => none
  | fuel + 1, len :: rest, acc =>
    if len = 0 then some acc
    else if rest.length < len then none
    else
      getQueryNamesGo fuel (rest.drop len)
        (acc ++ String.mk ((rest.take len).map Char.ofNat) ++ ".")

/-- `get_query_names` (main.rs:137-150): decodes the dot-joined query name
from a length-prefixed label sequence, accumulating into `acc`.  `none`
models the panics of the source (empty input, length byte overrunning the
buffer). -/
def get_query_names (req : List Nat) (acc : String) : Option String :=
  getQueryNamesGo req.length req acc

/-- The reply splice of `main` (main.rs:74-79):
`request[0..2].iter().chain(res).copied().collect()` — the first two bytes of
the original query followed by the cached payload.  `request[0..2]` panics
when the request is shorter than 2 bytes. -/
def splice_reply (request res : List Nat) : Option (List Nat) :=
  (sliceTo request 2).map (fun txid => txid ++ res)

/-- One iteration of the `while let` loop of `main` (main.rs:62-80), at time
`now`, for a received datagram `request`, with `resp` the DoH oracle answer
for this cycle.  In source order: slice `&request[12..]` (panic when the
datagram is shorter than 12 bytes), decode the name, sweep with
`invalidate_cache(&mut cache, ttl, false)`, run `cache_hit(..).await?`,
`cache.get(&request[2..]).unwrap()` (panic when `None`), splice the reply and
send it.  Returns the new cache, the reply datagram sent, and the HIT/MISS
flag. -/
def main_cycle (ttl : Nat) (cache : Cache) (now : Nat) (request : List Nat)
    (resp : Option (List Nat)) : Except RunError (Cache × List Nat × Bool) :=
  match sliceFrom request 12 with
  | none => .error .panicked
  | some qsec =>
    match get_query_names qsec "" with
    | none => .error .panicked
    | some _name =>
      let cache1 := invalidate_cache cache ttl false now
      match cache_hit cache1 request now resp with
      | .error e => .error e
      | .ok (cache2, hit) =>
        match mainLookupKey request with
        | none => .error .panicked
        | some key =>
          match cacheGet cache2 key with
          | none => .error .panicked
          | some (_, res) =>
            match splice_reply request res with
            | none => .error .panicked
            | some reply => .ok (cache2, reply, hit)

/-- The `while let` loop of `main` over a finite trace of incoming datagrams
`(arrival time, datagram bytes, DoH oracle answer)`.  An error in any cycle
propagates out (the `?` operators in `main`), ending the run; otherwise the
run collects each cycle's `(reply sent, hit flag)` and the final cache. -/
def main_loop (ttl : Nat) :
    Cache → List (Nat × List Nat × Option (List Nat)) →
      Except RunError (List (List Nat × Bool) × Cache)
  | c, [] => .ok ([], c)
  | c, (now, req, resp) :: rest =>
    match main_cycle ttl c now req resp with
    | .error e => .error e
    | .ok (c', reply, hit) =>
      match main_loop ttl c' rest with
      | .error e => .error e
      | .ok (out, cf) => .ok ((reply, hit) :: out, cf)

/-- A minimal well-formed query datagram: a 12-byte header (all zero) followed
by the root name (a single zero length byte). -/
def q0 : List Nat := List.replicate 12 0 ++ [0]

/-- A well-formed query datagram for the one-label name "A": 12-byte header
followed by the question labels `[1, 65, 0]`. -/
def qA : List Nat := List.replicate 12 0 ++ [1, 65, 0]

/-- The cache key of `q0`: its bytes from offset 2 on. -/
def q0key : List Nat := List.replicate 10 0 ++ [0]

/-- A 3-byte DoH response body: 2-byte resolver transaction id `[9, 9]`
followed by the payload byte `[7]`. -/
def body3 : List Nat := [9, 9, 7]

/-- `cacheGet` after `cacheInsert` with the same key finds the inserted
entry. -/
theorem cacheGet_cacheInsert (c : Cache) (k : List Nat) (v : Entry) :
    cacheGet (cacheInsert c k v) k = some v := by
  simp [cacheInsert, cacheGet]

/-- C1: the claim says a `force=true` sweep retains exactly the entries whose
age is within `ttl`, so an entry inserted at time 0 should still be present
at `ttl - 1` and absent at `ttl + 1`.  The code does the opposite: with
`ttl = 2`, the sweep at time `1` (age `ttl - 1`) DROPS the entry, and the
sweep at time `3` (age `ttl + 1`) RETAINS it — the retention condition
`elapsed > ttl || !force` is inverted. -/
theorem invalidate_force_drops_fresh_keeps_stale :
    invalidate_cache [([0], (0, [1]))] 2 true 1 = []
    ∧ invalidate_cache [([0], (0, [1]))] 2 true 3 = [([0], (0, [1]))] := by
  constructor <;> rfl

/-- C2: the claim says that with caching disabled (`ttl = 0`) every request
forwards and the second identical query is a miss.  On the trace of two
identical queries `q0` at times 0 and 5 with `ttl = 0`, the code's second
cycle is a HIT (flag `true`): the sweep in `main` passes `force = false`, so
the entry inserted by the first cycle survives and no forward call happens. -/
theorem ttl_zero_second_query_still_hits :
    main_loop 0 [] [(0, q0, some body3), (5, q0, some body3)]
      = .ok ([([0, 0, 7], false), ([0, 0, 7], true)], [(q0key, (0, [7]))]) := by
  rfl

/-- C4: an 11-byte datagram makes the slice `&request[12..]` panic, and a
question section `[5, 1]` whose length byte 5 overruns the remaining buffer
makes `&req[1..=len]` panic; in both cases the cycle ends in a panic rather
than being skipped, and a loop whose first datagram is the short one dies
with the panic, never serving the well-formed second datagram. -/
theorem short_datagram_panics :
    main_cycle 3600 [] 0 (List.replicate 11 0) (some body3) = .error .panicked
    ∧ main_cycle 3600 [] 0 (List.replicate 12 0 ++ [5, 1]) (some body3) = .error .panicked
    ∧ main_loop 3600 [] [(0, List.replicate 11 0, some body3), (1, q0, some body3)]
        = .error .panicked := by
  refine ⟨rfl, rfl, rfl⟩

/-- C5: a DoH response body shorter than 2 bytes makes `body.drain(2..)`
panic instead of propagating a forwarding error; no cache entry is inserted
(the returned state is the panic, not a cache).  At exactly 2 bytes the code
succeeds and caches the empty payload. -/
theorem short_body_panics_not_error :
    cache_miss [] q0 0 (some [7]) = .error .panicked
    ∧ cache_miss [] q0 0 (some []) = .error .panicked
    ∧ cache_miss [] q0 0 (some [1, 2]) = .ok [(q0key, (0, []))] := by
  refine ⟨rfl, rfl, rfl⟩

/-- C6: for every original query of at least 2 bytes and every cached
payload, the spliced wire reply exists, its first two bytes are the query's
first two bytes (the transaction id), and the rest is exactly the payload. -/
theorem splice_reply_first_two_then_payload (q p : List Nat) (h : 2 ≤ q.length) :
    ∃ r, splice_reply q p = some r ∧ r.take 2 = q.take 2 ∧ r.drop 2 = p := by
  have hl : (q.take 2).length = 2 := by
    simp [List.length_take]
    omega
  refine ⟨q.take 2 ++ p, ?_, ?_, ?_⟩
  · simp [splice_reply, sliceTo, h]
  · rw [List.take_append_eq_append_take, hl]
    simp [List.take_take]
  · rw [List.drop_append_eq_append_drop, hl]
    simp [List.drop_eq_nil_of_le, hl]

/-- Witness for C6 at the concrete query `[1, 2, 3]` and payload `[9]`. -/
theorem splice_reply_first_two_then_payload_witness :
    ∃ r, splice_reply [1, 2, 3] [9] = some r
      ∧ r.take 2 = [1, 2, 3].take 2 ∧ r.drop 2 = [9] :=
  splice_reply_first_two_then_payload [1, 2, 3] [9] (by decide)

/-- C7: two queries (each at least 2 bytes long) that agree from offset 2 on
— i.e. differ at most in their 2-byte transaction id — get the same cache
key, and the key expressions of the containment check in `cache_hit`, the
insert in `cache_miss` and the lookup in `main` all coincide with that
derivation (bytes from offset 2 onward). -/
theorem cache_key_ignores_txid (q1 q2 : List Nat) (h1 : 2 ≤ q1.length)
    (h2 : 2 ≤ q2.length) (h : q1.drop 2 = q2.drop 2) :
    key_for q1 = key_for q2
    ∧ cacheHitKey q1 = key_for q1
    ∧ cacheMissInsertKey q1 = key_for q1
    ∧ mainLookupKey q1 = key_for q1 := by
  refine ⟨?_, rfl, rfl, rfl⟩
  simp [key_for, sliceFrom, h1, h2, h]

/-- Witness for C7 at the concrete queries `[1, 2, 5]` and `[3, 4, 5]`,
which differ exactly in their first two bytes. -/
theorem cache_key_ignores_txid_witness :
    key_for [1, 2, 5] = key_for [3, 4, 5]
    ∧ cacheHitKey [1, 2, 5] = key_for [1, 2, 5]
    ∧ cacheMissInsertKey [1, 2, 5] = key_for [1, 2, 5]
    ∧ mainLookupKey [1, 2, 5] = key_for [1, 2, 5] :=
  cache_key_ignores_txid [1, 2, 5] [3, 4, 5] (by decide) (by decide) (by decide)

/-- C3 counterexample: on a trace whose first cycle's forwarder fails and
whose second datagram is well-formed with a working forwarder, the run ends
in the propagated forwarding error — the second datagram is never received
or served, contradicting the claim that only the failing cycle's reply is
skipped and the loop continues. -/
theorem forward_failure_stops_loop_cex :
    main_loop 3600 [] [(0, q0, none), (1, q0, some body3)] = .error .forwardErr := by
  rfl

/-- C3 amended: when the forwarder fails in a cycle (after any prefix of
successful cycles), `cache_hit(..).await?` propagates the error out of
`main`: the run returns the forwarding error and none of the subsequent
datagrams, whatever they are, is received or served. -/
theorem forward_failure_aborts_rest (ttl : Nat) (c : Cache)
    (pre rest : List (Nat × List Nat × Option (List Nat))) (now : Nat)
    (q : List Nat) (out : List (List Nat × Bool)) (c' : Cache)
    (h1 : main_loop ttl c pre = .ok (out, c'))
    (h2 : main_cycle ttl c' now q none = .error .forwardErr) :
    main_loop ttl c (pre ++ (now, q, none) :: rest) = .error .forwardErr := by
  induction pre generalizing c out with
  | nil =>
    simp only [main_loop, Except.ok.injEq, Prod.mk.injEq] at h1
    obtain ⟨rfl, rfl⟩ := h1
    simp only [List.nil_append, main_loop]
    rw [h2]
  | cons p pre ih =>
    obtain ⟨n₁, r₁, f₁⟩ := p
    simp only [main_loop] at h1
    cases hcyc : main_cycle ttl c n₁ r₁ f₁ with
    | error e => rw [hcyc] at h1; exact absurd h1 (by simp)
    | ok v =>
      obtain ⟨c1, reply, hit⟩ := v
      simp only [hcyc] at h1
      cases hrec : main_loop ttl c1 pre with
      | error e => rw [hrec] at h1; exact absurd h1 (by simp)
      | ok w =>
        obtain ⟨o, cf⟩ := w
        rw [hrec] at h1
        simp only [Except.ok.injEq, Prod.mk.injEq] at h1
        obtain ⟨rfl, rfl⟩ := h1
        simp only [List.cons_append, main_loop, List.append_eq, hcyc, ih c1 o hrec]

/-- Witness for the amended C3: one successful cycle, then a cycle whose
forwarder fails on a different query, then one more pending datagram — the
run ends in the forwarding error. -/
theorem forward_failure_aborts_rest_witness :
    main_loop 3600 []
        ([(0, q0, some body3)] ++ (5, qA, none) :: [(6, q0, some body3)])
      = .error .forwardErr :=
  forward_failure_aborts_rest 3600 [] [(0, q0, some body3)] [(6, q0, some body3)]
    5 qA [([0, 0, 7], false)] [(q0key, (0, [7]))] (by rfl) (by rfl)

/-- C8: whenever `cache_hit` returns `Ok` — either because the key was
already present (HIT) or because `cache_miss` inserted it — the resulting
cache contains an entry under the key `&request[2..]` that `main` looks up,
so the subsequent `unwrap` cannot panic in the same cycle. -/
theorem cache_hit_ensures_entry (c : Cache) (q : List Nat) (now : Nat)
    (resp : Option (List Nat)) (c' : Cache) (hit : Bool)
    (h : cache_hit c q now resp = .ok (c', hit)) :
    ∃ k v, mainLookupKey q = some k ∧ cacheGet c' k = some v := by
  unfold cache_hit at h
  cases hk : cacheHitKey q with
  | none => rw [hk] at h; exact absurd h (by simp)
  | some k =>
    simp only [hk] at h
    have hmain : mainLookupKey q = some k := hk
    by_cases hc : cacheContains c k
    · rw [if_pos hc] at h
      simp only [Except.ok.injEq, Prod.mk.injEq] at h
      obtain ⟨rfl, rfl⟩ := h
      obtain ⟨v, hv⟩ := Option.isSome_iff_exists.mp hc
      exact ⟨k, v, hmain, hv⟩
    · rw [if_neg hc] at h
      unfold cache_miss at h
      cases resp with
      | none => exact absurd h (by simp [Except.map])
      | some body =>
        have hk' : cacheMissInsertKey q = some k := hk
        simp only [hk'] at h
        cases hb : sliceFrom body 2 with
        | none => simp only [hb, Except.map] at h; exact absurd h (by simp)
        | some payload =>
          simp only [hb, Except.map, Except.ok.injEq, Prod.mk.injEq] at h
          obtain ⟨rfl, rfl⟩ := h
          exact ⟨k, (now, payload), hmain, cacheGet_cacheInsert c k (now, payload)⟩

/-- Witness for C8: starting from the empty cache with query `q0` and a
3-byte forwarder response, `cache_hit` returns `Ok` and the entry is
findable under `q0`'s lookup key. -/
theorem cache_hit_ensures_entry_witness :
    ∃ k v, mainLookupKey q0 = some k ∧ cacheGet [(q0key, (0, [7]))] k = some v :=
  cache_hit_ensures_entry [] q0 0 (some body3) [(q0key, (0, [7]))] false (by rfl)

/-- C9: `get_query_names` is deterministic — two decodes of the same
question bytes with the same accumulator produce the same string — and
decoding `[3, 'f', 'o', 'o', 3, 'c', 'o', 'm', 0]` yields `"foo.com."`. -/
theorem get_query_names_deterministic :
    (∀ (req : List Nat) (acc s₁ s₂ : String),
        get_query_names req acc = some s₁ → get_query_names req acc = some s₂ →
          s₁ = s₂)
    ∧ get_query_names [3, 102, 111, 111, 3, 99, 111, 109, 0] "" = some "foo.com." := by
  constructor
  · intro req acc s₁ s₂ e₁ e₂
    rw [e₁] at e₂
    exact Option.some.inj e₂
  · rfl

/-- Witness for C9: both decode hypotheses hold at the concrete `foo.com`
question bytes. -/
theorem get_query_names_deterministic_witness :
    ("foo.com." : String) = "foo.com." :=
  get_query_names_deterministic.1 [3, 102, 111, 111, 3, 99, 111, 109, 0] ""
    "foo.com." "foo.com." (by rfl) (by rfl)

/-- C10: `invalidate_cache` with `force = false` retains every entry —
`!force` makes the retention condition true regardless of `ttl` and of every
entry's age — and since `main` always sweeps with `force = false`, a whole
proxy cycle behaves identically for any two configured `ttl` values: no
entry is ever evicted during normal operation. -/
theorem invalidate_no_force_is_identity :
    (∀ (c : Cache) (ttl now : Nat), invalidate_cache c ttl false now = c)
    ∧ (∀ (ttl₁ ttl₂ : Nat) (c : Cache) (now : Nat) (q : List Nat)
        (resp : Option (List Nat)),
        main_cycle ttl₁ c now q resp = main_cycle ttl₂ c now q resp) := by
  have h : ∀ (c : Cache) (ttl now : Nat), invalidate_cache c ttl false now = c := by
    intro c ttl now
    simp [invalidate_cache]
  refine ⟨h, ?_⟩
  intro t1 t2 c now q resp
  simp only [main_cycle, h]

end DoH
